import Mathlib

/-! # Subscription writer (`index.go`)

A shallow embedding of `subscribeHandler` and of the start-up code in `main`.

The handler talks to three collaborators that are not part of the program:
the JSON decoder, the SQL store and the wall clock.  They are modelled as
follows.

* The decoder is a parameter `decode : β → Option SubscribeRequest`
  (`none` is a non-nil error from `decoder.Decode`).
* The store is a record of answers (`Store`): whether `Begin`, `Prepare`,
  the k-th `Exec` and `Commit` return an error.  Rows written by `Exec` live
  in the open transaction until `Commit` succeeds; `Rollback` discards them.
* The clock is a function `clock : Nat → Nat`; the n-th read of the clock
  (counting from zero) returns `clock n`.

Every call the handler makes on a collaborator is recorded, in order, in the
`trace` of the `World`.
-/

namespace LineBackend

/-! ## Data model -/

/-- Struct `SubscribeRequest` (index.go, lines 17-20).  `Subscriptions` is a Go
map: `none` is the nil map, `some es` a map whose entries are `es`, listed in
the order in which the `range` loop of this invocation visits them.  A nil
slice of towns and an empty one are both `[]`. -/
structure SubscribeRequest where
  UserID : String
  Subscriptions : Option (List (String × List String))
  deriving DecidableEq, Repr

/-- Struct `Response` (index.go, lines 23-26). -/
structure Response where
  Success : Bool
  Message : String
  deriving DecidableEq, Repr

/-- A value of a member of the encoded `Response` object. -/
inductive FieldValue
  | bool (b : Bool)
  | str (s : String)
  deriving DecidableEq, Repr

/-- Members of the JSON object that the struct tags of `Response` produce:
`json:"success"` is always present, `json:"message,omitempty"` only when the
message is not the empty string. -/
def Response.members (r : Response) : List (String × FieldValue) :=
  [("success", FieldValue.bool r.Success)] ++
    (if r.Message = "" then [] else [("message", FieldValue.str r.Message)])

/-- Arguments of one `stmt.Exec(req.UserID, county, town, now)`: one row of
`subscriptions (user_id, county, town, created_at)`. -/
structure Row where
  user_id : String
  county : String
  town : String
  created_at : Nat
  deriving DecidableEq, Repr

/-- The incoming request: its method and its body. -/
structure Request (β : Type) where
  method : String
  body : β

/-- Constant `http.MethodPost`. -/
def MethodPost : String := "POST"

/-- Constant `http.StatusMethodNotAllowed`. -/
def StatusMethodNotAllowed : Nat := 405

/-- Constant `http.StatusBadRequest`. -/
def StatusBadRequest : Nat := 400

/-- Constant `http.StatusInternalServerError`. -/
def StatusInternalServerError : Nat := 500

/-- Constant `http.StatusOK`, the status of a response whose header was never
written explicitly. -/
def StatusOK : Nat := 200

/-- Calls made by the handler, in the order of the source. -/
inductive Event
  | decode
  | begin
  | prepare
  | now
  | exec (row : Row)
  | rollback
  | commit
  | httpError (msg : String) (code : Nat)
  | setHeader (key : String) (value : String)
  | encode (r : Response)
  | stmtClose
  | bodyClose
  | nilDereference
  deriving DecidableEq, Repr

/-- One piece of the response body. -/
inductive Chunk
  | text (s : String)
  | json (members : List (String × FieldValue))
  deriving DecidableEq, Repr

/-- The `http.ResponseWriter`: header map, status line (`none` until it is
written) and body. -/
structure ResponseWriter where
  header : List (String × String)
  status : Option Nat
  body : List Chunk
  deriving DecidableEq, Repr

/-- Answers of the store to the calls of one invocation: `execOk k row` is
whether the Exec number `k` (counting from zero) of the prepared statement,
called with `row`, returns without error. -/
structure Store where
  beginOk : Bool
  prepareOk : Bool
  execOk : Nat → Row → Bool
  commitOk : Bool

/-- Everything outside the handler that it reads or changes. -/
structure World where
  table : List Row
  tx : Option (List Row)
  execs : Nat
  clockReads : Nat
  resp : ResponseWriter
  trace : List Event

/-- The world at the start of an invocation: a fresh response writer, no open
transaction, nothing called yet. -/
def World.init (table : List Row) (reads : Nat) : World :=
  { table := table, tx := none, execs := 0, clockReads := reads,
    resp := { header := [], status := none, body := [] }, trace := [] }

/-! ## Collaborators -/

/-- Record a call. -/
def World.log (w : World) (e : Event) : World :=
  { w with trace := w.trace ++ [e] }

/-- `Header().Set`: replace the value stored under `key`. -/
def setKey (key value : String) (h : List (String × String)) : List (String × String) :=
  h.filter (fun kv => kv.1 ≠ key) ++ [(key, value)]

/-- `http.Error(w, msg, code)`: plain-text content type, the status line and
the message followed by a newline. -/
def httpError (msg : String) (code : Nat) (w : World) : World :=
  { w.log (Event.httpError msg code) with
    resp :=
      { header := setKey "X-Content-Type-Options" "nosniff"
          (setKey "Content-Type" "text/plain; charset=utf-8" w.resp.header),
        status := some (w.resp.status.getD code),
        body := w.resp.body ++ [Chunk.text (msg ++ "\n")] } }

/-- `w.Header().Set(key, value)`. -/
def setHeader (key value : String) (w : World) : World :=
  { w.log (Event.setHeader key value) with
    resp := { w.resp with header := setKey key value w.resp.header } }

/-- `json.NewEncoder(w).Encode(r)`: the first write fixes the status to 200 when
no status was written before. -/
def encode (r : Response) (w : World) : World :=
  { w.log (Event.encode r) with
    resp :=
      { w.resp with
        status := some (w.resp.status.getD StatusOK),
        body := w.resp.body ++ [Chunk.json r.members] } }

/-- `db.Begin()` on a valid handle: on success a transaction with no rows is
open. -/
def dbBegin (s : Store) (w : World) : World × Bool :=
  if s.beginOk then ({ w.log Event.begin with tx := some [] }, true)
  else (w.log Event.begin, false)

/-- `tx.Prepare(...)`. -/
def txPrepare (s : Store) (w : World) : World × Bool :=
  (w.log Event.prepare, s.prepareOk)

/-- `stmt.Exec(...)`: on success the row joins the rows of the open
transaction. -/
def stmtExec (s : Store) (row : Row) (w : World) : World × Bool :=
  if s.execOk w.execs row then
    ({ w.log (Event.exec row) with
       tx := w.tx.map (fun rows => rows ++ [row]), execs := w.execs + 1 }, true)
  else
    ({ w.log (Event.exec row) with execs := w.execs + 1 }, false)

/-- `tx.Rollback()`: the rows of the open transaction are discarded. -/
def txRollback (w : World) : World :=
  { w.log Event.rollback with tx := none }

/-- `tx.Commit()`: on success the rows of the transaction are appended to the
table; either way the transaction is finished. -/
def txCommit (s : Store) (w : World) : World × Bool :=
  if s.commitOk then
    ({ w.log Event.commit with table := w.table ++ w.tx.getD [], tx := none }, true)
  else
    ({ w.log Event.commit with tx := none }, false)

/-- `time.Now()`: the next value of the clock. -/
def timeNow (clock : Nat → Nat) (w : World) : Nat × World :=
  (clock w.clockReads, { w.log Event.now with clockReads := w.clockReads + 1 })

/-- Deferred `stmt.Close()`. -/
def stmtClose (w : World) : World := w.log Event.stmtClose

/-- Deferred `r.Body.Close()`. -/
def bodyClose (w : World) : World := w.log Event.bodyClose

/-! ## The handler -/

/-- The inner loop `for _, town := range towns` (index.go, lines 112-119).  The
flag is `false` when the handler returned from inside the loop. -/
def execTowns (s : Store) (userId county : String) (now : Nat) :
    List String → World → World × Bool
  | [], w => (w, true)
  | town :: towns, w =>
    match stmtExec s ⟨userId, county, town, now⟩ w with
    | (w1, true) => execTowns s userId county now towns w1
    | (w1, false) =>
      (httpError "Internal server error" StatusInternalServerError (txRollback w1), false)

/-- The outer loop `for county, towns := range req.Subscriptions` (index.go,
lines 111-120). -/
def execCounties (s : Store) (userId : String) (now : Nat) :
    List (String × List String) → World → World × Bool
  | [], w => (w, true)
  | (county, towns) :: rest, w =>
    match execTowns s userId county now towns w with
    | (w1, true) => execCounties s userId now rest w1
    | (w1, false) => (w1, false)

/-- Entries a `range` loop visits: none for the nil map. -/
def entries (m : Option (List (String × List String))) : List (String × List String) :=
  m.getD []

/-- Function `subscribeHandler` (index.go, lines 76-131).  `db` is the
package-level variable `db`; `none` is the nil pointer, on which `db.Begin()`
panics (the deferred `r.Body.Close()` still runs). -/
def subscribeHandler {β : Type} (decode : β → Option SubscribeRequest) (clock : Nat → Nat)
    (db : Option Store) (r : Request β) (w : World) : World :=
  if r.method ≠ MethodPost then
    httpError "Method not allowed" StatusMethodNotAllowed w
  else
    match decode r.body with
    | none => httpError "Bad request" StatusBadRequest (w.log Event.decode)
    | some req =>
      bodyClose <|
        match db with
        | none => (w.log Event.decode).log Event.nilDereference
        | some s =>
          match dbBegin s (w.log Event.decode) with
          | (w1, false) => httpError "Internal server error" StatusInternalServerError w1
          | (w1, true) =>
            match txPrepare s w1 with
            | (w2, false) =>
              httpError "Internal server error" StatusInternalServerError (txRollback w2)
            | (w2, true) =>
              stmtClose <|
                match timeNow clock w2 with
                | (now, w3) =>
                  match execCounties s req.UserID now (entries req.Subscriptions) w3 with
                  | (w4, false) => w4
                  | (w4, true) =>
                    match txCommit s w4 with
                    | (w5, false) =>
                      httpError "Internal server error" StatusInternalServerError w5
                    | (w5, true) =>
                      encode { Success := true, Message := "" }
                        (setHeader "Content-Type" "application/json" w5)

/-- Rows the loops pass to `Exec`, in order, when no `Exec` fails. -/
def flatten (userId : String) (now : Nat) (es : List (String × List String)) : List Row :=
  es.flatMap (fun e => e.2.map (fun town => (⟨userId, e.1, town, now⟩ : Row)))

/-- The loops seen as one loop over the flattened rows. -/
def execRows (s : Store) : List Row → World → World × Bool
  | [], w => (w, true)
  | row :: rows, w =>
    match stmtExec s row w with
    | (w1, true) => execRows s rows w1
    | (w1, false) =>
      (httpError "Internal server error" StatusInternalServerError (txRollback w1), false)

/-- The world after the Execs of `rows` all succeeded. -/
def World.afterExecs (w : World) (rows : List Row) : World :=
  { w with
    tx := w.tx.map (fun p => p ++ rows),
    execs := w.execs + rows.length,
    trace := w.trace ++ rows.map Event.exec }

/-- The world after an Exec of `row` that returned an error. -/
def World.afterFailedExec (w : World) (row : Row) : World :=
  { w.log (Event.exec row) with execs := w.execs + 1 }

/-- The world when the handler reaches the loops. -/
def World.atLoops (table : List Row) (reads : Nat) : World :=
  { table := table, tx := some [], execs := 0, clockReads := reads + 1,
    resp := { header := [], status := none, body := [] },
    trace := [Event.decode, Event.begin, Event.prepare, Event.now] }

/-- The response of the success path: status 200, JSON content type and the
object with the single member `success`. -/
def okResponse : ResponseWriter :=
  { header := [("Content-Type", "application/json")],
    status := some StatusOK,
    body := [Chunk.json [("success", FieldValue.bool true)]] }

/-- The response `http.Error` writes on a fresh writer. -/
def errorResponse (msg : String) (code : Nat) : ResponseWriter :=
  { header := [("Content-Type", "text/plain; charset=utf-8"),
      ("X-Content-Type-Options", "nosniff")],
    status := some code,
    body := [Chunk.text (msg ++ "\n")] }

/-- A decoder over bodies that are already requests, or undecodable. -/
def decodeId : Option SubscribeRequest → Option SubscribeRequest := fun b => b

/-- A store in which every call succeeds. -/
def goodStore : Store :=
  { beginOk := true, prepareOk := true, execOk := fun _ _ => true, commitOk := true }

/-- A store in which the Exec number `k` fails and every other call succeeds. -/
def execFailsAt (k : Nat) : Store :=
  { beginOk := true, prepareOk := true, execOk := fun i _ => i != k, commitOk := true }

/-- A store in which Commit fails and every other call succeeds. -/
def commitFails : Store :=
  { beginOk := true, prepareOk := true, execOk := fun _ _ => true, commitOk := false }

/-- A store in which Begin fails. -/
def beginFails : Store :=
  { beginOk := false, prepareOk := true, execOk := fun _ _ => true, commitOk := true }

/-- A store in which Prepare fails. -/
def prepareFails : Store :=
  { beginOk := true, prepareOk := false, execOk := fun _ _ => true, commitOk := true }

/-- The request of the example in the specification. -/
def exampleRequest : SubscribeRequest :=
  { UserID := "u1",
    Subscriptions := some [("CountyA", ["TownX", "TownY"]), ("CountyB", [])] }

/-- A POST request carrying the example request. -/
def postExample : Request (Option SubscribeRequest) := ⟨"POST", some exampleRequest⟩

/-- A row that is already in the table before the request. -/
def oldRow : Row := ⟨"u0", "CountyZ", "TownW", 7⟩

/-- A clock that starts at 1000 and advances by one at every read. -/
def tick : Nat → Nat := fun n => 1000 + n

/-! ## The JSON decoder on `SubscribeRequest`

`json.NewDecoder(r.Body).Decode(&req)` is library code.  What follows is its
documented behaviour on the struct of lines 17-20: a member of the object is
stored into the field whose tag name matches the member name (an exact match or
a match under case folding); members that match no field are skipped; a field
for which the object has no member keeps its value; `null` leaves a string
unchanged and resets a map or a slice to nil; a value of the wrong kind is an
error. -/

/-- A JSON value, as scanned from the body. -/
inductive Json
  | null
  | bool (b : Bool)
  | number (literal : String)
  | string (s : String)
  | array (items : List Json)
  | object (members : List (String × Json))

/-- Case folding of one rune of a member name: lower-case ASCII letters go to
upper case, and the two non-ASCII runes whose fold is an ASCII letter, the
long s (U+017F) and the Kelvin sign (U+212A), go to `S` and `K`.  No other rune
folds to an ASCII letter, so this decides every match with an ASCII tag name. -/
def foldRune (c : Char) : Char :=
  if c = Char.ofNat 0x17F then 'S'
  else if c = Char.ofNat 0x212A then 'K'
  else c.toUpper

/-- Case folding of a member name. -/
def foldName (name : String) : String := String.mk (name.data.map foldRune)

/-- The two fields of `SubscribeRequest`. -/
inductive Field
  | userId
  | subscriptions
  deriving DecidableEq, Repr

/-- The field a member name selects, by the tags `json:"userId"` and
`json:"subscriptions"`. -/
def fieldOf (name : String) : Option Field :=
  if foldName name = foldName "userId" then some Field.userId
  else if foldName name = foldName "subscriptions" then some Field.subscriptions
  else none

/-- Decoding into a `string` that currently holds `cur`. -/
def decodeString (cur : String) : Json → Option String
  | Json.string s => some s
  | Json.null => some cur
  | _ => none

/-- Decoding the items of an array into fresh `string` elements. -/
def decodeStrings : List Json → Option (List String)
  | [] => some []
  | j :: js =>
    match decodeString "" j, decodeStrings js with
    | some s, some rest => some (s :: rest)
    | _, _ => none

/-- Decoding into a fresh `[]string`. -/
def decodeSlice : Json → Option (List String)
  | Json.array items => decodeStrings items
  | Json.null => some []
  | _ => none

/-- Assignment `m[key] = v`. -/
def mapSet (key : String) (v : List String) (m : List (String × List String)) :
    List (String × List String) :=
  if m.any (fun e => e.1 == key) then m.map (fun e => if e.1 = key then (key, v) else e)
  else m ++ [(key, v)]

/-- Decoding the members of an object into the entries of a map. -/
def decodeEntries :
    List (String × Json) → List (String × List String) → Option (List (String × List String))
  | [], m => some m
  | (key, j) :: rest, m =>
    match decodeSlice j with
    | some v => decodeEntries rest (mapSet key v m)
    | none => none

/-- Decoding into a `map[string][]string` that currently holds `cur`. -/
def decodeMap (cur : Option (List (String × List String))) :
    Json → Option (Option (List (String × List String)))
  | Json.object members => (decodeEntries members (cur.getD [])).map some
  | Json.null => some none
  | _ => none

/-- Decoding the members of an object into the struct `req`. -/
def decodeMembers : List (String × Json) → SubscribeRequest → Option SubscribeRequest
  | [], req => some req
  | (name, j) :: rest, req =>
    match fieldOf name with
    | none => decodeMembers rest req
    | some Field.userId =>
      match decodeString req.UserID j with
      | some u => decodeMembers rest { req with UserID := u }
      | none => none
    | some Field.subscriptions =>
      match decodeMap req.Subscriptions j with
      | some m => decodeMembers rest { req with Subscriptions := m }
      | none => none

/-- Decoding a JSON value into the zero `SubscribeRequest` declared by
`var req SubscribeRequest`. -/
def decodeValue : Json → Option SubscribeRequest
  | Json.object members => decodeMembers members { UserID := "", Subscriptions := none }
  | Json.null => some { UserID := "", Subscriptions := none }
  | _ => none

/-- The call `decoder.Decode(&req)` on a body: `none` is a body that does not
start with a well-formed JSON value. -/
def decodeRequest : Option Json → Option SubscribeRequest
  | none => none
  | some j => decodeValue j

/-- The object has no member that selects the field `f`. -/
def lacks (f : Field) (members : List (String × Json)) : Prop :=
  ∀ m ∈ members, fieldOf m.1 ≠ some f

/-- The value of a member has the kind its field needs; members that select no
field always do. -/
def wellTyped (m : String × Json) : Bool :=
  match fieldOf m.1 with
  | none => true
  | some Field.userId => (decodeString "" m.2).isSome
  | some Field.subscriptions => (decodeMap none m.2).isSome

/-! ## Start-up -/

/-- The package-level variables: `var db *sql.DB`, `none` being nil. -/
structure Globals where
  db : Option Store

/-- The zero values the package-level variables have when `main` starts. -/
def Globals.zero : Globals := { db := none }

/-- How `main` leaves start-up: `log.Fatalf`, or the server listening with the
package-level variables `globals`, the local variable `db` of `main` and the
port. -/
inductive Startup
  | fatal
  | serving (globals : Globals) (localDb : Option Store) (port : String)

/-- Function `main` (index.go, lines 30-73) up to `http.ListenAndServe`.
`getenv` is `os.Getenv` after `godotenv.Load`, `sqlOpen` is `sql.Open` (`none`
when it returns an error, which `main` only logs).  Line 53,
`db, err := sql.Open(dbMysql, dsn)`, is a short variable declaration inside
`main`: `err` exists in that scope already, `db` does not, so it declares a new
local `db`; nothing is assigned to the package-level `db`. -/
def main (getenv : String → String) (sqlOpen : String → String → Option Store)
    (g : Globals) : Startup :=
  let dbMysql := getenv "MADB_MYSQL"
  let dbUsername := getenv "MADB_USERNAME"
  let dbPassword := getenv "MADB_PASSWORD"
  let dbRequest := getenv "MADB_REQUEST"
  let dbDatabase := getenv "MADB_DATABASE"
  if dbMysql = "" ∨ dbUsername = "" ∨ dbPassword = "" ∨ dbRequest = "" ∨ dbDatabase = "" then
    Startup.fatal
  else
    let dsn := dbUsername ++ ":" ++ dbPassword ++ "@tcp(" ++ dbRequest ++ ")/" ++ dbDatabase
    let db := sqlOpen dbMysql dsn
    let port := if getenv "PORT" = "" then "8080" else getenv "PORT"
    Startup.serving g db port

/-- The handle with which requests are served after start-up: the
package-level `db` that `subscribeHandler` reads. -/
def Startup.handlerDb : Startup → Option Store
  | Startup.fatal => none
  | Startup.serving g _ _ => g.db

/-- An environment with all five database parameters set. -/
def exampleEnv : String → String := fun name =>
  if name = "MADB_MYSQL" then "mysql"
  else if name = "MADB_USERNAME" then "line"
  else if name = "MADB_PASSWORD" then "secret"
  else if name = "MADB_REQUEST" then "127.0.0.1:3306"
  else if name = "MADB_DATABASE" then "linedb"
  else ""

/-- A `sql.Open` that succeeds and returns a working handle. -/
def openGood : String → String → Option Store := fun _ _ => some goodStore

/-! ## The loops -/

theorem execTowns_eq_execRows (s : Store) (userId county : String) (now : Nat)
    (towns : List String) (w : World) :
    execTowns s userId county now towns w =
      execRows s (towns.map (fun town => (⟨userId, county, town, now⟩ : Row))) w := by
  induction towns generalizing w with
  | nil => rfl
  | cons town towns ih =>
    simp only [execTowns, execRows, List.map_cons]
    cases h : stmtExec s ⟨userId, county, town, now⟩ w with
    | mk w1 ok => cases ok <;> simp [ih]

theorem execRows_append (s : Store) (a b : List Row) (w : World) :
    execRows s (a ++ b) w =
      (match execRows s a w with
       | (w1, true) => execRows s b w1
       | (w1, false) => (w1, false)) := by
  induction a generalizing w with
  | nil => simp [execRows]
  | cons row a ih =>
    simp only [List.cons_append, execRows]
    cases h : stmtExec s row w with
    | mk w1 ok => cases ok <;> simp [ih]

theorem execCounties_eq_execRows (s : Store) (userId : String) (now : Nat)
    (es : List (String × List String)) (w : World) :
    execCounties s userId now es w = execRows s (flatten userId now es) w := by
  induction es generalizing w with
  | nil => rfl
  | cons e es ih =>
    obtain ⟨county, towns⟩ := e
    simp only [execCounties, flatten, List.flatMap_cons, execRows_append]
    rw [execTowns_eq_execRows]
    cases h : execRows s (towns.map (fun town => (⟨userId, county, town, now⟩ : Row))) w with
    | mk w1 ok =>
      cases ok
      · simp
      · simpa [flatten] using ih w1

theorem afterExecs_nil (w : World) : w.afterExecs [] = w := by
  cases w with
  | mk table tx execs clockReads resp trace =>
    cases tx <;> simp [World.afterExecs]

theorem afterExecs_cons (s : Store) (w : World) (row : Row) (rows : List Row)
    (h : s.execOk w.execs row = true) :
    (stmtExec s row w).1.afterExecs rows = w.afterExecs (row :: rows) := by
  cases w with
  | mk table tx execs clockReads resp trace =>
    cases tx <;>
      simp_all [World.afterExecs, stmtExec, World.log, Nat.add_assoc, Nat.add_comm 1]

/-- When no Exec fails, the loops run every Exec and return normally. -/
theorem execRows_ok (s : Store) (rows : List Row) (w : World)
    (h : ∀ i r, rows[i]? = some r → s.execOk (w.execs + i) r = true) :
    execRows s rows w = (w.afterExecs rows, true) := by
  induction rows generalizing w with
  | nil => simp [execRows, afterExecs_nil]
  | cons row rows ih =>
    have h0 : s.execOk w.execs row = true := by simpa using h 0 row
    have hs : stmtExec s row w = ((stmtExec s row w).1, true) := by
      simp [stmtExec, h0]
    have hexecs : (stmtExec s row w).1.execs = w.execs + 1 := by
      simp [stmtExec, h0, World.log]
    rw [execRows, hs]
    simp only []
    rw [ih, afterExecs_cons s w row rows h0]
    intro i r hi
    rw [hexecs, Nat.add_assoc, Nat.add_comm 1 i]
    exact h (i + 1) r (by simpa using hi)

/-- When Exec number `k` is the first to fail, the loops stop there: the
transaction is rolled back, the error response is written and the handler
returns. -/
theorem execRows_fail (s : Store) (rows : List Row) (w : World) (k : Nat) (row : Row)
    (hk : rows[k]? = some row)
    (hprev : ∀ i r, i < k → rows[i]? = some r → s.execOk (w.execs + i) r = true)
    (hfail : s.execOk (w.execs + k) row = false) :
    execRows s rows w =
      (httpError "Internal server error" StatusInternalServerError
        (txRollback ((w.afterExecs (rows.take k)).afterFailedExec row)), false) := by
  induction rows generalizing w k with
  | nil => simp at hk
  | cons r0 rows ih =>
    cases k with
    | zero =>
      have hr : r0 = row := by simpa using hk
      subst hr
      have hf : s.execOk w.execs r0 = false := by simpa using hfail
      simp [execRows, stmtExec, hf, afterExecs_nil, World.afterFailedExec]
    | succ k =>
      have h0 : s.execOk w.execs r0 = true := by simpa using hprev 0 r0 (Nat.succ_pos k)
      have hs : stmtExec s r0 w = ((stmtExec s r0 w).1, true) := by
        simp [stmtExec, h0]
      have hexecs : (stmtExec s r0 w).1.execs = w.execs + 1 := by
        simp [stmtExec, h0, World.log]
      rw [execRows, hs]
      simp only []
      rw [ih (stmtExec s r0 w).1 k (by simpa using hk), List.take_succ_cons,
        afterExecs_cons s w r0 _ h0]
      · intro i r hi hr
        rw [hexecs, Nat.add_assoc, Nat.add_comm 1 i]
        exact hprev (i + 1) r (Nat.succ_lt_succ hi) (by simpa using hr)
      · rw [hexecs, Nat.add_assoc, Nat.add_comm 1 k]
        exact hfail

/-- Either no Exec of `rows` fails, or there is a first one that does. -/
theorem exec_first_failure (s : Store) (rows : List Row) (n : Nat) :
    (∀ i r, rows[i]? = some r → s.execOk (n + i) r = true) ∨
      ∃ k row, rows[k]? = some row ∧
        (∀ i r, i < k → rows[i]? = some r → s.execOk (n + i) r = true) ∧
        s.execOk (n + k) row = false := by
  induction rows generalizing n with
  | nil => left; intro i r h; simp at h
  | cons r0 rows ih =>
    cases h0 : s.execOk n r0 with
    | false => exact Or.inr ⟨0, r0, by simp, by intro i r hi; omega, by simpa using h0⟩
    | true =>
      rcases ih (n + 1) with hall | ⟨k, row, hk, hprev, hfail⟩
      · left
        intro i r hi
        cases i with
        | zero =>
          have : r0 = r := by simpa using hi
          subst this
          simpa using h0
        | succ i =>
          have := hall i r (by simpa using hi)
          rwa [Nat.add_assoc, Nat.add_comm 1 i] at this
      · refine Or.inr ⟨k + 1, row, by simpa using hk, ?_, ?_⟩
        · intro i r hi hr
          cases i with
          | zero =>
            have : r0 = r := by simpa using hr
            subst this
            simpa using h0
          | succ i =>
            have := hprev i r (by omega) (by simpa using hr)
            rwa [Nat.add_assoc, Nat.add_comm 1 i] at this
        · rwa [Nat.add_assoc, Nat.add_comm 1 k] at hfail

/-- An event that is not an Exec is not among Execs. -/
theorem not_mem_map_exec (e : Event) (he : ∀ row, e ≠ Event.exec row) (rows : List Row) :
    e ∉ rows.map Event.exec := by
  intro h
  obtain ⟨row, _, hrow⟩ := List.mem_map.1 h
  exact he row hrow.symm

/-- An event that is not an Exec does not count among Execs. -/
theorem count_map_exec (e : Event) (he : ∀ row, e ≠ Event.exec row) (rows : List Row) :
    (rows.map Event.exec).count e = 0 :=
  List.count_eq_zero.2 (not_mem_map_exec e he rows)

/-! ## The paths through the handler -/

section Paths

variable {β : Type} (decode : β → Option SubscribeRequest) (clock : Nat → Nat)
  (s : Store) (r : Request β) (req : SubscribeRequest) (table : List Row) (reads : Nat)

theorem handler_begin_fail (hm : r.method = MethodPost) (hd : decode r.body = some req)
    (hb : s.beginOk = false) :
    subscribeHandler decode clock (some s) r (World.init table reads) =
      ⟨table, none, 0, reads, errorResponse "Internal server error" 500,
        [Event.decode, Event.begin, Event.httpError "Internal server error" 500,
          Event.bodyClose]⟩ := by
  simp [subscribeHandler, hm, hd, hb, dbBegin, bodyClose, httpError, World.init, World.log,
    errorResponse, setKey, StatusInternalServerError]

theorem handler_prepare_fail (hm : r.method = MethodPost) (hd : decode r.body = some req)
    (hb : s.beginOk = true) (hp : s.prepareOk = false) :
    subscribeHandler decode clock (some s) r (World.init table reads) =
      ⟨table, none, 0, reads, errorResponse "Internal server error" 500,
        [Event.decode, Event.begin, Event.prepare, Event.rollback,
          Event.httpError "Internal server error" 500, Event.bodyClose]⟩ := by
  simp [subscribeHandler, hm, hd, hb, hp, dbBegin, txPrepare, txRollback, bodyClose, httpError,
    World.init, World.log, errorResponse, setKey, StatusInternalServerError]

theorem handler_loops (hm : r.method = MethodPost) (hd : decode r.body = some req)
    (hb : s.beginOk = true) (hp : s.prepareOk = true) :
    subscribeHandler decode clock (some s) r (World.init table reads) =
      bodyClose (stmtClose
        (match execRows s (flatten req.UserID (clock reads) (entries req.Subscriptions))
            (World.atLoops table reads) with
         | (w4, false) => w4
         | (w4, true) =>
           match txCommit s w4 with
           | (w5, false) => httpError "Internal server error" StatusInternalServerError w5
           | (w5, true) =>
             encode { Success := true, Message := "" }
               (setHeader "Content-Type" "application/json" w5))) := by
  simp [subscribeHandler, hm, hd, hb, hp, dbBegin, txPrepare, timeNow,
    execCounties_eq_execRows, World.atLoops, World.init, World.log]

theorem handler_exec_fail (hm : r.method = MethodPost) (hd : decode r.body = some req)
    (hb : s.beginOk = true) (hp : s.prepareOk = true) (k : Nat) (row : Row)
    (hk : (flatten req.UserID (clock reads) (entries req.Subscriptions))[k]? = some row)
    (hprev : ∀ i r', i < k → (flatten req.UserID (clock reads) (entries req.Subscriptions))[i]? = some r' → s.execOk i r' = true)
    (hfail : s.execOk k row = false) :
    subscribeHandler decode clock (some s) r (World.init table reads) =
      ⟨table, none, k + 1, reads + 1, errorResponse "Internal server error" 500,
        [Event.decode, Event.begin, Event.prepare, Event.now] ++
          ((flatten req.UserID (clock reads) (entries req.Subscriptions)).take (k + 1)).map Event.exec ++
          [Event.rollback, Event.httpError "Internal server error" 500,
            Event.stmtClose, Event.bodyClose]⟩ := by
  have htake : (flatten req.UserID (clock reads) (entries req.Subscriptions)).take (k + 1) = (flatten req.UserID (clock reads) (entries req.Subscriptions)).take k ++ [row] := by
    rw [List.take_succ, hk]; rfl
  have hlen : k < (flatten req.UserID (clock reads) (entries req.Subscriptions)).length := by
    rcases Nat.lt_or_ge k (flatten req.UserID (clock reads) (entries req.Subscriptions)).length with h | h
    · exact h
    · rw [List.getElem?_eq_none h] at hk
      cases hk
  rw [handler_loops decode clock s r req table reads hm hd hb hp,
    execRows_fail s _ (World.atLoops table reads) k row hk
      (by simpa [World.atLoops] using hprev) (by simpa [World.atLoops] using hfail), htake]
  simp [-List.map_take, bodyClose, stmtClose, httpError, txRollback, World.afterFailedExec,
    World.afterExecs, World.atLoops, World.log, errorResponse, setKey,
    StatusInternalServerError, Nat.min_eq_left (Nat.le_of_lt hlen)]

theorem handler_commit_fail (hm : r.method = MethodPost) (hd : decode r.body = some req)
    (hb : s.beginOk = true) (hp : s.prepareOk = true)
    (hex : ∀ i r', (flatten req.UserID (clock reads) (entries req.Subscriptions))[i]? = some r' → s.execOk i r' = true)
    (hc : s.commitOk = false) :
    subscribeHandler decode clock (some s) r (World.init table reads) =
      ⟨table, none, (flatten req.UserID (clock reads) (entries req.Subscriptions)).length, reads + 1, errorResponse "Internal server error" 500,
        [Event.decode, Event.begin, Event.prepare, Event.now] ++ (flatten req.UserID (clock reads) (entries req.Subscriptions)).map Event.exec ++
          [Event.commit, Event.httpError "Internal server error" 500,
            Event.stmtClose, Event.bodyClose]⟩ := by
  rw [handler_loops decode clock s r req table reads hm hd hb hp,
    execRows_ok s _ (World.atLoops table reads) (by simpa [World.atLoops] using hex)]
  simp [txCommit, hc, bodyClose, stmtClose, httpError, World.afterExecs, World.atLoops,
    World.log, errorResponse, setKey, StatusInternalServerError]

theorem handler_ok (hm : r.method = MethodPost) (hd : decode r.body = some req)
    (hb : s.beginOk = true) (hp : s.prepareOk = true)
    (hex : ∀ i r', (flatten req.UserID (clock reads) (entries req.Subscriptions))[i]? = some r' → s.execOk i r' = true)
    (hc : s.commitOk = true) :
    subscribeHandler decode clock (some s) r (World.init table reads) =
      ⟨table ++ (flatten req.UserID (clock reads) (entries req.Subscriptions)), none, (flatten req.UserID (clock reads) (entries req.Subscriptions)).length, reads + 1, okResponse,
        [Event.decode, Event.begin, Event.prepare, Event.now] ++ (flatten req.UserID (clock reads) (entries req.Subscriptions)).map Event.exec ++
          [Event.commit, Event.setHeader "Content-Type" "application/json",
            Event.encode { Success := true, Message := "" },
            Event.stmtClose, Event.bodyClose]⟩ := by
  rw [handler_loops decode clock s r req table reads hm hd hb hp,
    execRows_ok s _ (World.atLoops table reads) (by simpa [World.atLoops] using hex)]
  simp [txCommit, hc, bodyClose, stmtClose, encode, setHeader, World.afterExecs,
    World.atLoops, World.log, okResponse, setKey, Response.members, StatusOK]

/-- The five paths of a POST request with a decodable body on a valid handle. -/
theorem handler_paths (hm : r.method = MethodPost) (hd : decode r.body = some req) :
    (s.beginOk = false ∧
      subscribeHandler decode clock (some s) r (World.init table reads) =
        ⟨table, none, 0, reads, errorResponse "Internal server error" 500,
          [Event.decode, Event.begin, Event.httpError "Internal server error" 500,
            Event.bodyClose]⟩) ∨
    (s.beginOk = true ∧ s.prepareOk = false ∧
      subscribeHandler decode clock (some s) r (World.init table reads) =
        ⟨table, none, 0, reads, errorResponse "Internal server error" 500,
          [Event.decode, Event.begin, Event.prepare, Event.rollback,
            Event.httpError "Internal server error" 500, Event.bodyClose]⟩) ∨
    (s.beginOk = true ∧ s.prepareOk = true ∧ ∃ k row,
      (flatten req.UserID (clock reads) (entries req.Subscriptions))[k]? = some row ∧ s.execOk k row = false ∧
      subscribeHandler decode clock (some s) r (World.init table reads) =
        ⟨table, none, k + 1, reads + 1, errorResponse "Internal server error" 500,
          [Event.decode, Event.begin, Event.prepare, Event.now] ++
            ((flatten req.UserID (clock reads) (entries req.Subscriptions)).take (k + 1)).map Event.exec ++
            [Event.rollback, Event.httpError "Internal server error" 500,
              Event.stmtClose, Event.bodyClose]⟩) ∨
    (s.beginOk = true ∧ s.prepareOk = true ∧
      (∀ i r', (flatten req.UserID (clock reads) (entries req.Subscriptions))[i]? = some r' → s.execOk i r' = true) ∧
      s.commitOk = false ∧
      subscribeHandler decode clock (some s) r (World.init table reads) =
        ⟨table, none, (flatten req.UserID (clock reads) (entries req.Subscriptions)).length, reads + 1, errorResponse "Internal server error" 500,
          [Event.decode, Event.begin, Event.prepare, Event.now] ++ (flatten req.UserID (clock reads) (entries req.Subscriptions)).map Event.exec ++
            [Event.commit, Event.httpError "Internal server error" 500,
              Event.stmtClose, Event.bodyClose]⟩) ∨
    (s.beginOk = true ∧ s.prepareOk = true ∧
      (∀ i r', (flatten req.UserID (clock reads) (entries req.Subscriptions))[i]? = some r' → s.execOk i r' = true) ∧
      s.commitOk = true ∧
      subscribeHandler decode clock (some s) r (World.init table reads) =
        ⟨table ++ (flatten req.UserID (clock reads) (entries req.Subscriptions)), none, (flatten req.UserID (clock reads) (entries req.Subscriptions)).length, reads + 1, okResponse,
          [Event.decode, Event.begin, Event.prepare, Event.now] ++ (flatten req.UserID (clock reads) (entries req.Subscriptions)).map Event.exec ++
            [Event.commit, Event.setHeader "Content-Type" "application/json",
              Event.encode { Success := true, Message := "" },
              Event.stmtClose, Event.bodyClose]⟩) := by
  cases hb : s.beginOk with
  | false => exact Or.inl ⟨rfl, handler_begin_fail decode clock s r req table reads hm hd hb⟩
  | true =>
    cases hp : s.prepareOk with
    | false =>
      exact Or.inr (Or.inl ⟨rfl, rfl,
        handler_prepare_fail decode clock s r req table reads hm hd hb hp⟩)
    | true =>
      rcases exec_first_failure s (flatten req.UserID (clock reads) (entries req.Subscriptions)) 0 with hall | ⟨k, row, hk, hprev, hfail⟩
      · have hex : ∀ i r', (flatten req.UserID (clock reads) (entries req.Subscriptions))[i]? = some r' → s.execOk i r' = true := by
          intro i r' hi
          simpa using hall i r' hi
        cases hc : s.commitOk with
        | false =>
          exact Or.inr (Or.inr (Or.inr (Or.inl ⟨rfl, rfl, hex, rfl,
            handler_commit_fail decode clock s r req table reads hm hd hb hp hex hc⟩)))
        | true =>
          exact Or.inr (Or.inr (Or.inr (Or.inr ⟨rfl, rfl, hex, rfl,
            handler_ok decode clock s r req table reads hm hd hb hp hex hc⟩)))
      · refine Or.inr (Or.inr (Or.inl ⟨rfl, rfl, k, row, hk, by simpa using hfail, ?_⟩))
        exact handler_exec_fail decode clock s r req table reads hm hd hb hp k row hk
          (by intro i r' hi hr; simpa using hprev i r' hi hr) (by simpa using hfail)

end Paths

/-- Every flattened row carries the user id and the time stamp it was built
from. -/
theorem mem_flatten {userId : String} {now : Nat} {es : List (String × List String)}
    {row : Row} (h : row ∈ flatten userId now es) :
    row.user_id = userId ∧ row.created_at = now ∧
      ∃ e ∈ es, row.county = e.1 ∧ row.town ∈ e.2 := by
  simp only [flatten, List.mem_flatMap, List.mem_map] at h
  obtain ⟨e, he, town, ht, rfl⟩ := h
  exact ⟨rfl, rfl, e, he, rfl, ht⟩

/-- A map without sub-region entries flattens to no rows. -/
theorem flatten_eq_nil (userId : String) (now : Nat) (es : List (String × List String))
    (h : ∀ e ∈ es, e.2 = []) : flatten userId now es = [] := by
  induction es with
  | nil => rfl
  | cons e es ih =>
    have he : e.2 = [] := h e (List.mem_cons_self _ _)
    have ih' := ih (fun e' he' => h e' (List.mem_cons_of_mem _ he'))
    simp only [flatten] at ih'
    simp [flatten, he, ih']

/-! ## Properties of the handler -/

/-- C5 (method gate): a request whose method is not POST gets status 405 with
the message "Method not allowed"; the handler makes no other call at all: no
decoding of the body, no Begin, Prepare, Exec, Commit or Rollback.  This holds
whatever the body and whatever the handle `db`. -/
theorem C5_method_gate {β : Type} (decode : β → Option SubscribeRequest) (clock : Nat → Nat)
    (db : Option Store) (r : Request β) (table : List Row) (reads : Nat)
    (hm : r.method ≠ MethodPost) :
    (subscribeHandler decode clock db r (World.init table reads)).resp =
        errorResponse "Method not allowed" 405 ∧
      (subscribeHandler decode clock db r (World.init table reads)).trace =
        [Event.httpError "Method not allowed" 405] ∧
      (subscribeHandler decode clock db r (World.init table reads)).table = table ∧
      (subscribeHandler decode clock db r (World.init table reads)).tx = none := by
  simp [subscribeHandler, hm, httpError, World.init, World.log, errorResponse, setKey,
    StatusMethodNotAllowed]

/-- C5 at a GET request with a well-formed body and a working store. -/
theorem C5_method_gate_witness :
    (⟨"GET", some exampleRequest⟩ : Request (Option SubscribeRequest)).method ≠ MethodPost ∧
      (subscribeHandler decodeId tick (some goodStore) ⟨"GET", some exampleRequest⟩
          (World.init [] 0)).resp = errorResponse "Method not allowed" 405 ∧
      (subscribeHandler decodeId tick (some goodStore) ⟨"GET", some exampleRequest⟩
          (World.init [] 0)).trace = [Event.httpError "Method not allowed" 405] ∧
      (subscribeHandler decodeId tick (some goodStore) ⟨"GET", some exampleRequest⟩
          (World.init [] 0)).table = [] ∧
      (subscribeHandler decodeId tick (some goodStore) ⟨"GET", some exampleRequest⟩
          (World.init [] 0)).tx = none :=
  ⟨by decide, C5_method_gate decodeId tick (some goodStore) ⟨"GET", some exampleRequest⟩ [] 0
    (by decide)⟩

/-- C6 (decode failure): a POST request whose body the decoder rejects gets
status 400 with the message "Bad request"; after the decoding attempt the
handler makes no call on the store (no Begin, Prepare, Exec, Commit or
Rollback) and no transaction is open. -/
theorem C6_decode_failure {β : Type} (decode : β → Option SubscribeRequest)
    (clock : Nat → Nat) (db : Option Store) (r : Request β) (table : List Row) (reads : Nat)
    (hm : r.method = MethodPost) (hd : decode r.body = none) :
    (subscribeHandler decode clock db r (World.init table reads)).resp =
        errorResponse "Bad request" 400 ∧
      (subscribeHandler decode clock db r (World.init table reads)).trace =
        [Event.decode, Event.httpError "Bad request" 400] ∧
      (subscribeHandler decode clock db r (World.init table reads)).table = table ∧
      (subscribeHandler decode clock db r (World.init table reads)).tx = none := by
  simp [subscribeHandler, hm, hd, httpError, World.init, World.log, errorResponse, setKey,
    StatusBadRequest]

/-- C6 at a POST request with an undecodable body and a working store. -/
theorem C6_decode_failure_witness :
    (⟨"POST", none⟩ : Request (Option SubscribeRequest)).method = MethodPost ∧
      decodeId (⟨"POST", none⟩ : Request (Option SubscribeRequest)).body = none ∧
      (subscribeHandler decodeId tick (some goodStore) ⟨"POST", none⟩
          (World.init [] 0)).resp = errorResponse "Bad request" 400 ∧
      (subscribeHandler decodeId tick (some goodStore) ⟨"POST", none⟩
          (World.init [] 0)).trace = [Event.decode, Event.httpError "Bad request" 400] ∧
      (subscribeHandler decodeId tick (some goodStore) ⟨"POST", none⟩
          (World.init [] 0)).table = [] ∧
      (subscribeHandler decodeId tick (some goodStore) ⟨"POST", none⟩
          (World.init [] 0)).tx = none :=
  ⟨rfl, rfl, C6_decode_failure decodeId tick (some goodStore) ⟨"POST", none⟩ [] 0 rfl rfl⟩

/-- C1 (atomicity): for a POST request with a decodable body and a store in
which Begin and Prepare succeed, if Exec number `k` (counting from zero over
the flattened sub-region entries) is reached and returns an error, the handler
calls Rollback right after it, then writes the 500 response and returns: the
Execs issued are exactly the first `k + 1`, there is no Commit, and the table
afterwards equals the table before. -/
theorem C1_atomicity {β : Type} (decode : β → Option SubscribeRequest) (clock : Nat → Nat)
    (s : Store) (r : Request β) (req : SubscribeRequest) (table : List Row) (reads : Nat)
    (k : Nat) (row : Row)
    (hm : r.method = MethodPost) (hd : decode r.body = some req)
    (hb : s.beginOk = true) (hp : s.prepareOk = true)
    (hk : (flatten req.UserID (clock reads) (entries req.Subscriptions))[k]? = some row)
    (hprev : ∀ i r', i < k → (flatten req.UserID (clock reads) (entries req.Subscriptions))[i]? = some r' → s.execOk i r' = true)
    (hfail : s.execOk k row = false) :
    (subscribeHandler decode clock (some s) r (World.init table reads)).trace =
        [Event.decode, Event.begin, Event.prepare, Event.now] ++
          ((flatten req.UserID (clock reads) (entries req.Subscriptions)).take (k + 1)).map Event.exec ++
          [Event.rollback, Event.httpError "Internal server error" 500,
            Event.stmtClose, Event.bodyClose] ∧
      Event.commit ∉ (subscribeHandler decode clock (some s) r (World.init table reads)).trace ∧
      (subscribeHandler decode clock (some s) r (World.init table reads)).table = table ∧
      (subscribeHandler decode clock (some s) r (World.init table reads)).tx = none ∧
      (subscribeHandler decode clock (some s) r (World.init table reads)).resp = errorResponse "Internal server error" 500 := by
  rw [handler_exec_fail decode clock s r req table reads hm hd hb hp k row hk hprev hfail]
  refine ⟨rfl, ?_, rfl, rfl, rfl⟩
  simp only [List.mem_append, List.mem_cons, List.mem_singleton, reduceCtorEq,
    List.not_mem_nil, or_false, false_or, or_self, not_false_eq_true,
    not_mem_map_exec Event.commit (by intro row; simp)]

/-- C1 at the example request when the second of its two Execs fails: both
Execs are issued, then Rollback; the table keeps its one old row. -/
theorem C1_atomicity_witness :
    (subscribeHandler decodeId tick (some (execFailsAt 1)) postExample
        (World.init [oldRow] 0)).trace =
        [Event.decode, Event.begin, Event.prepare, Event.now,
          Event.exec ⟨"u1", "CountyA", "TownX", 1000⟩,
          Event.exec ⟨"u1", "CountyA", "TownY", 1000⟩,
          Event.rollback, Event.httpError "Internal server error" 500,
          Event.stmtClose, Event.bodyClose] ∧
      Event.commit ∉ (subscribeHandler decodeId tick (some (execFailsAt 1)) postExample
        (World.init [oldRow] 0)).trace ∧
      (subscribeHandler decodeId tick (some (execFailsAt 1)) postExample
        (World.init [oldRow] 0)).table = [oldRow] ∧
      (subscribeHandler decodeId tick (some (execFailsAt 1)) postExample
        (World.init [oldRow] 0)).tx = none ∧
      (subscribeHandler decodeId tick (some (execFailsAt 1)) postExample
        (World.init [oldRow] 0)).resp = errorResponse "Internal server error" 500 :=
  C1_atomicity decodeId tick (execFailsAt 1) postExample exampleRequest [oldRow] 0 1
    ⟨"u1", "CountyA", "TownY", 1000⟩ rfl rfl rfl rfl (by decide)
    (by
      intro i r' hi _
      have hi0 : i = 0 := by omega
      subst hi0
      rfl)
    rfl

/-- C2 (flattening): for a POST request with a decodable body on which Begin,
Prepare, every Exec and Commit succeed, the Execs issued and the rows appended
to the table by the commit are the same list of rows; as a multiset it is
exactly the rows (userId, region, subRegion, now) for every entry of the map
and every element, with repetitions, of that entry's list, and its length is
the sum of the lengths of the lists. -/
theorem C2_flattening {β : Type} (decode : β → Option SubscribeRequest) (clock : Nat → Nat)
    (s : Store) (r : Request β) (req : SubscribeRequest) (table : List Row) (reads : Nat)
    (hm : r.method = MethodPost) (hd : decode r.body = some req)
    (hb : s.beginOk = true) (hp : s.prepareOk = true)
    (hex : ∀ i r', (flatten req.UserID (clock reads) (entries req.Subscriptions))[i]? = some r' → s.execOk i r' = true)
    (hc : s.commitOk = true) :
    (subscribeHandler decode clock (some s) r (World.init table reads)).table = table ++ flatten req.UserID (clock reads) (entries req.Subscriptions) ∧
      (subscribeHandler decode clock (some s) r (World.init table reads)).trace =
        [Event.decode, Event.begin, Event.prepare, Event.now] ++
          (flatten req.UserID (clock reads) (entries req.Subscriptions)).map Event.exec ++
          [Event.commit, Event.setHeader "Content-Type" "application/json",
            Event.encode { Success := true, Message := "" },
            Event.stmtClose, Event.bodyClose] ∧
      ((flatten req.UserID (clock reads) (entries req.Subscriptions) : List Row) :
          Multiset Row) =
        Multiset.bind ((entries req.Subscriptions : List (String × List String)) :
            Multiset (String × List String))
          (fun e => Multiset.map
            (fun town => (⟨req.UserID, e.1, town, clock reads⟩ : Row)) (e.2 : Multiset String)) ∧
      (flatten req.UserID (clock reads) (entries req.Subscriptions)).length = ((entries req.Subscriptions).map (fun e => e.2.length)).sum := by
  rw [handler_ok decode clock s r req table reads hm hd hb hp hex hc]
  refine ⟨rfl, rfl, ?_, ?_⟩
  · simp only [flatten, ← Multiset.coe_bind, Multiset.map_coe]
  · simp [flatten, List.length_flatMap, Function.comp_def]

/-- C2 at the example of the specification: exactly the two rows of CountyA are
written; CountyB contributes none. -/
theorem C2_flattening_witness :
    (subscribeHandler decodeId tick (some goodStore) postExample (World.init [oldRow] 0)).table =
        [oldRow, ⟨"u1", "CountyA", "TownX", 1000⟩, ⟨"u1", "CountyA", "TownY", 1000⟩] ∧
      (subscribeHandler decodeId tick (some goodStore) postExample (World.init [oldRow] 0)).trace =
        [Event.decode, Event.begin, Event.prepare, Event.now,
          Event.exec ⟨"u1", "CountyA", "TownX", 1000⟩,
          Event.exec ⟨"u1", "CountyA", "TownY", 1000⟩,
          Event.commit, Event.setHeader "Content-Type" "application/json",
          Event.encode { Success := true, Message := "" },
          Event.stmtClose, Event.bodyClose] ∧
      ((flatten "u1" 1000 [("CountyA", ["TownX", "TownY"]), ("CountyB", [])] : List Row) :
          Multiset Row) =
        Multiset.bind (([("CountyA", ["TownX", "TownY"]), ("CountyB", [])] :
            List (String × List String)) : Multiset (String × List String))
          (fun e => Multiset.map
            (fun town => (⟨"u1", e.1, town, 1000⟩ : Row)) (e.2 : Multiset String)) ∧
      (flatten "u1" 1000 [("CountyA", ["TownX", "TownY"]), ("CountyB", [])]).length =
        ([("CountyA", ["TownX", "TownY"]), ("CountyB", [])].map
          (fun e => e.2.length)).sum :=
  C2_flattening decodeId tick goodStore postExample exampleRequest [oldRow] 0 rfl rfl rfl rfl
    (fun _ _ _ => rfl) rfl

/-- C4 (empty input): for a POST request whose decoded map is nil or empty, or
whose every region maps to an empty list, and a store in which Begin, Prepare
and Commit succeed, the handler issues no Exec, still calls Commit, and
answers with status 200 and the object whose only member is `success: true`;
the table is unchanged. -/
theorem C4_empty_input {β : Type} (decode : β → Option SubscribeRequest) (clock : Nat → Nat)
    (s : Store) (r : Request β) (req : SubscribeRequest) (table : List Row) (reads : Nat)
    (hm : r.method = MethodPost) (hd : decode r.body = some req)
    (hb : s.beginOk = true) (hp : s.prepareOk = true) (hc : s.commitOk = true)
    (hempty : req.Subscriptions = none ∨ req.Subscriptions = some [] ∨
      ∀ e ∈ entries req.Subscriptions, e.2 = []) :
    (subscribeHandler decode clock (some s) r (World.init table reads)).trace =
        [Event.decode, Event.begin, Event.prepare, Event.now, Event.commit,
          Event.setHeader "Content-Type" "application/json",
          Event.encode { Success := true, Message := "" },
          Event.stmtClose, Event.bodyClose] ∧
      (subscribeHandler decode clock (some s) r (World.init table reads)).resp = okResponse ∧
      (subscribeHandler decode clock (some s) r (World.init table reads)).table = table := by
  have hall : ∀ e ∈ entries req.Subscriptions, e.2 = [] := by
    rcases hempty with h | h | h
    · simp [h, entries]
    · simp [h, entries]
    · exact h
  have hnil := flatten_eq_nil req.UserID (clock reads) _ hall
  rw [handler_ok decode clock s r req table reads hm hd hb hp (by simp [hnil]) hc, hnil]
  simp

/-- C4 at a request whose only region has an empty list. -/
theorem C4_empty_input_witness :
    (subscribeHandler decodeId tick (some goodStore)
        ⟨"POST", some ⟨"u1", some [("CountyB", [])]⟩⟩ (World.init [oldRow] 0)).trace =
        [Event.decode, Event.begin, Event.prepare, Event.now, Event.commit,
          Event.setHeader "Content-Type" "application/json",
          Event.encode { Success := true, Message := "" },
          Event.stmtClose, Event.bodyClose] ∧
      (subscribeHandler decodeId tick (some goodStore)
        ⟨"POST", some ⟨"u1", some [("CountyB", [])]⟩⟩ (World.init [oldRow] 0)).resp =
        okResponse ∧
      (subscribeHandler decodeId tick (some goodStore)
        ⟨"POST", some ⟨"u1", some [("CountyB", [])]⟩⟩ (World.init [oldRow] 0)).table =
        [oldRow] :=
  C4_empty_input decodeId tick goodStore ⟨"POST", some ⟨"u1", some [("CountyB", [])]⟩⟩
    ⟨"u1", some [("CountyB", [])]⟩ [oldRow] 0 rfl rfl rfl rfl rfl
    (Or.inr (Or.inr (by decide)))

/-- Facts about a trace of the write loop: one clock read, and every Exec in
it carries a row of `l`. -/
theorem loop_trace_facts (l : List Row) (tail : List Event)
    (hnow : Event.now ∉ tail) (hexec : ∀ row, Event.exec row ∉ tail) :
    ([Event.decode, Event.begin, Event.prepare, Event.now] ++ l.map Event.exec ++
        tail).count Event.now = 1 ∧
      ∀ row, Event.exec row ∈
          [Event.decode, Event.begin, Event.prepare, Event.now] ++ l.map Event.exec ++ tail →
        row ∈ l := by
  constructor
  · simp [List.count_cons, count_map_exec Event.now (by intro row; simp),
      List.count_eq_zero.2 hnow]
  · intro row h
    simp only [List.mem_append, List.mem_cons, reduceCtorEq, List.not_mem_nil, or_false,
      false_or, List.mem_map, Event.exec.injEq, exists_eq_right] at h
    rcases h with h | h
    · exact h
    · exact absurd h (hexec row)

/-- C3, refuted as stated: the clock is not read once in every invocation.  A
GET request, a POST request with an undecodable body, and POST requests on
which Begin or Prepare fails all return before `time.Now()` (line 108): the
clock is read zero times. -/
theorem C3_counterexample :
    (subscribeHandler decodeId tick (some goodStore) ⟨"GET", some exampleRequest⟩
        (World.init [] 0)).trace.count Event.now = 0 ∧
      (subscribeHandler decodeId tick (some goodStore) ⟨"GET", some exampleRequest⟩
        (World.init [] 0)).clockReads = 0 ∧
      (subscribeHandler decodeId tick (some goodStore) ⟨"POST", none⟩
        (World.init [] 0)).trace.count Event.now = 0 ∧
      (subscribeHandler decodeId tick (some beginFails) postExample
        (World.init [] 0)).trace.count Event.now = 0 ∧
      (subscribeHandler decodeId tick (some prepareFails) postExample
        (World.init [] 0)).trace.count Event.now = 0 :=
  ⟨by decide, by decide, by decide, by decide, by decide⟩

/-- C3, amended: in every invocation the clock is read at most once; it is read
exactly once when the handler reaches the write loop (POST, decodable body,
valid handle, Begin and Prepare succeeded) and not at all on every other path.
Every Exec of the invocation comes after that single read and receives its
value as `created_at`, and so does every row the invocation adds to the table,
so any two of them have the same `created_at`. -/
theorem C3_timestamp_amended {β : Type} (decode : β → Option SubscribeRequest)
    (clock : Nat → Nat) (db : Option Store) (r : Request β) (table : List Row) (reads : Nat) :
    (subscribeHandler decode clock db r (World.init table reads)).trace.count Event.now ≤ 1 ∧
      (subscribeHandler decode clock db r (World.init table reads)).clockReads =
        reads + (subscribeHandler decode clock db r (World.init table reads)).trace.count
          Event.now ∧
      (∀ s req, db = some s → r.method = MethodPost → decode r.body = some req →
        s.beginOk = true → s.prepareOk = true →
        (subscribeHandler decode clock db r (World.init table reads)).trace.count
          Event.now = 1) ∧
      ((¬ ∃ s req, db = some s ∧ r.method = MethodPost ∧ decode r.body = some req ∧
          s.beginOk = true ∧ s.prepareOk = true) →
        (subscribeHandler decode clock db r (World.init table reads)).trace.count
          Event.now = 0) ∧
      (∀ row, Event.exec row ∈
          (subscribeHandler decode clock db r (World.init table reads)).trace →
        (subscribeHandler decode clock db r (World.init table reads)).trace.count
            Event.now = 1 ∧
          row.created_at = clock reads) ∧
      ∃ added,
        (subscribeHandler decode clock db r (World.init table reads)).table = table ++ added ∧
        ∀ r1 ∈ added, ∀ r2 ∈ added,
          r1.created_at = clock reads ∧ r1.created_at = r2.created_at := by
  by_cases hm : r.method = MethodPost
  swap
  · refine ⟨?_, ?_, ?_, ?_, ?_, [], ?_, ?_⟩ <;>
      simp [subscribeHandler, hm, httpError, World.init, World.log]
  cases hd : decode r.body with
  | none =>
    refine ⟨?_, ?_, ?_, ?_, ?_, [], ?_, ?_⟩ <;>
      simp [subscribeHandler, hm, hd, httpError, World.init, World.log]
  | some req =>
    cases db with
    | none =>
      refine ⟨?_, ?_, ?_, ?_, ?_, [], ?_, ?_⟩ <;>
        simp [subscribeHandler, hm, hd, bodyClose, World.init, World.log]
    | some s =>
      rcases handler_paths decode clock s r req table reads hm hd with
        ⟨hb, hW⟩ | ⟨hb, hp, hW⟩ | ⟨hb, hp, k, row, hk, hfail, hW⟩ |
        ⟨hb, hp, hex, hc, hW⟩ | ⟨hb, hp, hex, hc, hW⟩
      · rw [hW]
        refine ⟨?_, ?_, ?_, ?_, ?_, [], ?_, ?_⟩ <;> simp [hb]
      · rw [hW]
        refine ⟨?_, ?_, ?_, ?_, ?_, [], ?_, ?_⟩ <;> simp [hb, hp]
      · rw [hW]
        obtain ⟨hcount, hrows⟩ := loop_trace_facts ((flatten req.UserID (clock reads) (entries req.Subscriptions)).take (k + 1))
          [Event.rollback, Event.httpError "Internal server error" 500,
            Event.stmtClose, Event.bodyClose] (by simp) (by simp)
        refine ⟨by rw [hcount], by rw [hcount], fun _ _ _ _ _ _ _ => hcount,
          fun hnot => absurd ⟨s, req, rfl, hm, rfl, hb, hp⟩ hnot, ?_, [], ?_, ?_⟩
        · intro row' hrow'
          exact ⟨hcount, (mem_flatten (List.mem_of_mem_take (hrows row' hrow'))).2.1⟩
        · simp
        · simp
      · rw [hW]
        obtain ⟨hcount, hrows⟩ := loop_trace_facts (flatten req.UserID (clock reads) (entries req.Subscriptions))
          [Event.commit, Event.httpError "Internal server error" 500,
            Event.stmtClose, Event.bodyClose] (by simp) (by simp)
        refine ⟨by rw [hcount], by rw [hcount], fun _ _ _ _ _ _ _ => hcount,
          fun hnot => absurd ⟨s, req, rfl, hm, rfl, hb, hp⟩ hnot, ?_, [], ?_, ?_⟩
        · intro row' hrow'
          exact ⟨hcount, (mem_flatten (hrows row' hrow')).2.1⟩
        · simp
        · simp
      · rw [hW]
        obtain ⟨hcount, hrows⟩ := loop_trace_facts (flatten req.UserID (clock reads) (entries req.Subscriptions))
          [Event.commit, Event.setHeader "Content-Type" "application/json",
            Event.encode { Success := true, Message := "" },
            Event.stmtClose, Event.bodyClose] (by simp) (by simp)
        refine ⟨by rw [hcount], by rw [hcount], fun _ _ _ _ _ _ _ => hcount,
          fun hnot => absurd ⟨s, req, rfl, hm, rfl, hb, hp⟩ hnot, ?_,
          (flatten req.UserID (clock reads) (entries req.Subscriptions)), rfl, ?_⟩
        · intro row' hrow'
          exact ⟨hcount, (mem_flatten (hrows row' hrow')).2.1⟩
        · intro r1 h1 r2 h2
          exact ⟨(mem_flatten h1).2.1, by rw [(mem_flatten h1).2.1, (mem_flatten h2).2.1]⟩

/-- C3 (amended) at the example request on a working store: the Exec of the
second row is in the trace, the clock was read once, and the row carries the
value of that read; on a store whose Begin fails the clock is not read. -/
theorem C3_timestamp_amended_witness :
    Event.exec ⟨"u1", "CountyA", "TownY", 1000⟩ ∈
        (subscribeHandler decodeId tick (some goodStore) postExample
          (World.init [oldRow] 0)).trace ∧
      ((subscribeHandler decodeId tick (some goodStore) postExample
          (World.init [oldRow] 0)).trace.count Event.now = 1 ∧
        (⟨"u1", "CountyA", "TownY", 1000⟩ : Row).created_at = tick 0) ∧
      (subscribeHandler decodeId tick (some goodStore) postExample
        (World.init [oldRow] 0)).clockReads =
        0 + (subscribeHandler decodeId tick (some goodStore) postExample
          (World.init [oldRow] 0)).trace.count Event.now :=
  ⟨by decide,
    (C3_timestamp_amended decodeId tick (some goodStore) postExample [oldRow] 0).2.2.2.2.1
      ⟨"u1", "CountyA", "TownY", 1000⟩ (by decide),
    (C3_timestamp_amended decodeId tick (some goodStore) postExample [oldRow] 0).2.1⟩

/-- C8, refuted as stated: when Commit fails after both writes of the example
request succeeded, the handler writes the 500 response without any call of
Rollback. -/
theorem C8_counterexample :
    (subscribeHandler decodeId tick (some commitFails) postExample (World.init [] 0)).trace =
        [Event.decode, Event.begin, Event.prepare, Event.now,
          Event.exec ⟨"u1", "CountyA", "TownX", 1000⟩,
          Event.exec ⟨"u1", "CountyA", "TownY", 1000⟩,
          Event.commit, Event.httpError "Internal server error" 500,
          Event.stmtClose, Event.bodyClose] ∧
      Event.rollback ∉
        (subscribeHandler decodeId tick (some commitFails) postExample (World.init [] 0)).trace :=
  ⟨by decide, by decide⟩

/-- C8, amended: for a POST request with a decodable body on which Begin
succeeded, when Prepare fails or when some Exec fails the handler calls
Rollback immediately before it writes the 500 response; when Commit fails
after every write succeeded it writes the 500 response right after the Commit,
without a Rollback. -/
theorem C8_rollback_amended {β : Type} (decode : β → Option SubscribeRequest)
    (clock : Nat → Nat) (s : Store) (r : Request β) (req : SubscribeRequest)
    (table : List Row) (reads : Nat)
    (hm : r.method = MethodPost) (hd : decode r.body = some req) (hb : s.beginOk = true) :
    (s.prepareOk = false →
      (subscribeHandler decode clock (some s) r (World.init table reads)).trace =
        [Event.decode, Event.begin, Event.prepare, Event.rollback,
          Event.httpError "Internal server error" 500, Event.bodyClose]) ∧
    (s.prepareOk = true → ∀ k row, (flatten req.UserID (clock reads) (entries req.Subscriptions))[k]? = some row →
      (∀ i r', i < k → (flatten req.UserID (clock reads) (entries req.Subscriptions))[i]? = some r' → s.execOk i r' = true) →
      s.execOk k row = false →
      (subscribeHandler decode clock (some s) r (World.init table reads)).trace =
        [Event.decode, Event.begin, Event.prepare, Event.now] ++
          ((flatten req.UserID (clock reads) (entries req.Subscriptions)).take (k + 1)).map Event.exec ++
          [Event.rollback, Event.httpError "Internal server error" 500,
            Event.stmtClose, Event.bodyClose]) ∧
    (s.prepareOk = true → (∀ i r', (flatten req.UserID (clock reads) (entries req.Subscriptions))[i]? = some r' → s.execOk i r' = true) →
      s.commitOk = false →
      (subscribeHandler decode clock (some s) r (World.init table reads)).trace =
        [Event.decode, Event.begin, Event.prepare, Event.now] ++ (flatten req.UserID (clock reads) (entries req.Subscriptions)).map Event.exec ++
          [Event.commit, Event.httpError "Internal server error" 500,
            Event.stmtClose, Event.bodyClose] ∧
      Event.rollback ∉ (subscribeHandler decode clock (some s) r (World.init table reads)).trace) := by
  refine ⟨fun hp => ?_, fun hp k row hk hprev hfail => ?_, fun hp hex hc => ?_⟩
  · rw [handler_prepare_fail decode clock s r req table reads hm hd hb hp]
  · rw [handler_exec_fail decode clock s r req table reads hm hd hb hp k row hk hprev hfail]
  · rw [handler_commit_fail decode clock s r req table reads hm hd hb hp hex hc]
    refine ⟨rfl, ?_⟩
    simp only [List.mem_append, List.mem_cons, List.mem_singleton, reduceCtorEq,
      List.not_mem_nil, or_false, false_or, or_self, not_false_eq_true,
      not_mem_map_exec Event.rollback (by intro row; simp)]

/-- C8 (amended) at the example request on a store whose Prepare fails:
Rollback comes right before the error response. -/
theorem C8_rollback_amended_witness :
    (subscribeHandler decodeId tick (some prepareFails) postExample (World.init [] 0)).trace =
      [Event.decode, Event.begin, Event.prepare, Event.rollback,
        Event.httpError "Internal server error" 500, Event.bodyClose] :=
  (C8_rollback_amended decodeId tick prepareFails postExample exampleRequest [] 0
    rfl rfl rfl).1 rfl

/-- C9 (outcome mapping): for a POST request with a decodable body on a valid
handle, the response is the success response (status 200, JSON content type,
the object with the single member `success: true` and no `message`) exactly
when Begin, Prepare, every Exec and Commit all succeed; if any of them fails,
the response is status 500 with the plain message "Internal server error" and
no JSON body.  The success response is one fixed value, the same whatever the
number of rows written. -/
theorem C9_outcome_mapping {β : Type} (decode : β → Option SubscribeRequest)
    (clock : Nat → Nat) (s : Store) (r : Request β) (req : SubscribeRequest)
    (table : List Row) (reads : Nat)
    (hm : r.method = MethodPost) (hd : decode r.body = some req) :
    ((subscribeHandler decode clock (some s) r (World.init table reads)).resp = okResponse ↔
      (s.beginOk = true ∧ s.prepareOk = true ∧
        (∀ i r', (flatten req.UserID (clock reads) (entries req.Subscriptions))[i]? = some r' → s.execOk i r' = true) ∧ s.commitOk = true)) ∧
    (¬ (s.beginOk = true ∧ s.prepareOk = true ∧
        (∀ i r', (flatten req.UserID (clock reads) (entries req.Subscriptions))[i]? = some r' → s.execOk i r' = true) ∧ s.commitOk = true) →
      (subscribeHandler decode clock (some s) r (World.init table reads)).resp = errorResponse "Internal server error" 500 ∧
      (∀ rsp, Event.encode rsp ∉ (subscribeHandler decode clock (some s) r (World.init table reads)).trace)) ∧
    okResponse.status = some 200 ∧
    okResponse.body =
      [Chunk.json (Response.members { Success := true, Message := "" })] ∧
    Response.members { Success := true, Message := "" } =
      [("success", FieldValue.bool true)] := by
  have hne : errorResponse "Internal server error" 500 ≠ okResponse := by decide
  have henc : ∀ (rsp : Response) (l : List Row) (tail : List Event),
      (∀ e ∈ tail, e ≠ Event.encode rsp) →
      Event.encode rsp ∉
        [Event.decode, Event.begin, Event.prepare, Event.now] ++ l.map Event.exec ++ tail := by
    intro rsp l tail ht h
    simp only [List.mem_append, List.mem_cons, reduceCtorEq, List.not_mem_nil, or_false,
      false_or, List.mem_map, and_false, exists_false] at h
    exact ht _ h rfl
  refine ⟨?_, ?_, rfl, rfl, rfl⟩
  · rcases handler_paths decode clock s r req table reads hm hd with
      ⟨hb, hW⟩ | ⟨hb, hp, hW⟩ | ⟨hb, hp, k, row, hk, hfail, hW⟩ |
      ⟨hb, hp, hex, hc, hW⟩ | ⟨hb, hp, hex, hc, hW⟩
    · rw [hW]
      exact ⟨fun h => absurd h hne, fun h => by simp [hb] at h⟩
    · rw [hW]
      exact ⟨fun h => absurd h hne, fun h => by simp [hp] at h⟩
    · rw [hW]
      refine ⟨fun h => absurd h hne, fun h => ?_⟩
      have := h.2.2.1 k row hk
      rw [hfail] at this
      cases this
    · rw [hW]
      exact ⟨fun h => absurd h hne, fun h => by simp [hc] at h⟩
    · rw [hW]
      exact ⟨fun _ => ⟨hb, hp, hex, hc⟩, fun _ => rfl⟩
  · intro hnot
    rcases handler_paths decode clock s r req table reads hm hd with
      ⟨hb, hW⟩ | ⟨hb, hp, hW⟩ | ⟨hb, hp, k, row, hk, hfail, hW⟩ |
      ⟨hb, hp, hex, hc, hW⟩ | ⟨hb, hp, hex, hc, hW⟩
    · rw [hW]
      exact ⟨rfl, fun rsp => by simp⟩
    · rw [hW]
      exact ⟨rfl, fun rsp => by simp⟩
    · rw [hW]
      exact ⟨rfl, fun rsp => henc rsp _ _ (by simp)⟩
    · rw [hW]
      exact ⟨rfl, fun rsp => henc rsp _ _ (by simp)⟩
    · exact absurd ⟨hb, hp, hex, hc⟩ hnot

/-- C9 at the example request: a failed Commit after two successful writes
gives status 500. -/
theorem C9_outcome_mapping_witness :
    (subscribeHandler decodeId tick (some commitFails) postExample (World.init [] 0)).resp =
        errorResponse "Internal server error" 500 ∧
      (∀ rsp, Event.encode rsp ∉
        (subscribeHandler decodeId tick (some commitFails) postExample
          (World.init [] 0)).trace) :=
  (C9_outcome_mapping decodeId tick commitFails postExample exampleRequest [] 0 rfl rfl).2.1
    (fun h => Bool.noConfusion h.2.2.2)

/-! ## Properties of the decoder -/

theorem decodeString_isSome (cur : String) (j : Json) :
    (decodeString cur j).isSome = (decodeString "" j).isSome := by
  cases j <;> rfl

theorem decodeEntries_isSome (members : List (String × Json))
    (m : List (String × List String)) :
    (decodeEntries members m).isSome = (decodeEntries members []).isSome := by
  induction members generalizing m with
  | nil => rfl
  | cons e rest ih =>
    obtain ⟨key, j⟩ := e
    simp only [decodeEntries]
    cases decodeSlice j with
    | none => rfl
    | some v => simp only []; rw [ih (mapSet key v m), ih (mapSet key v [])]

theorem decodeMap_isSome (cur : Option (List (String × List String))) (j : Json) :
    (decodeMap cur j).isSome = (decodeMap none j).isSome := by
  cases j with
  | object members =>
    simp only [decodeMap, Option.isSome_map', Option.getD_none]
    exact decodeEntries_isSome members _
  | _ => rfl

/-- The decoder rejects an object exactly when some member that selects a
field has a value of the wrong kind. -/
theorem decodeMembers_eq_none_iff (members : List (String × Json)) (req : SubscribeRequest) :
    decodeMembers members req = none ↔ ∃ m ∈ members, wellTyped m = false := by
  induction members generalizing req with
  | nil => simp [decodeMembers]
  | cons e rest ih =>
    obtain ⟨name, j⟩ := e
    simp only [decodeMembers, List.mem_cons, exists_eq_or_imp]
    cases hf : fieldOf name with
    | none =>
      have hw : wellTyped (name, j) = true := by simp [wellTyped, hf]
      simp [ih, hw]
    | some f =>
      cases f with
      | userId =>
        have hw : wellTyped (name, j) = (decodeString req.UserID j).isSome := by
          simp [wellTyped, hf, decodeString_isSome req.UserID j]
        cases h1 : decodeString req.UserID j with
        | none => simp [hw, h1]
        | some u => simp [hw, h1, ih]
      | subscriptions =>
        have hw : wellTyped (name, j) = (decodeMap req.Subscriptions j).isSome := by
          simp [wellTyped, hf, decodeMap_isSome req.Subscriptions j]
        cases h1 : decodeMap req.Subscriptions j with
        | none => simp [hw, h1]
        | some u => simp [hw, h1, ih]

/-- A field for which the object has no member keeps its value. -/
theorem decodeMembers_lacks (members : List (String × Json)) (req req' : SubscribeRequest)
    (h : decodeMembers members req = some req') :
    (lacks Field.userId members → req'.UserID = req.UserID) ∧
      (lacks Field.subscriptions members → req'.Subscriptions = req.Subscriptions) := by
  induction members generalizing req with
  | nil =>
    simp only [decodeMembers, Option.some.injEq] at h
    subst h
    exact ⟨fun _ => rfl, fun _ => rfl⟩
  | cons e rest ih =>
    obtain ⟨name, j⟩ := e
    have hrest : ∀ f, lacks f ((name, j) :: rest) → lacks f rest :=
      fun f hl m hm => hl m (List.mem_cons_of_mem _ hm)
    have hhead : ∀ f, lacks f ((name, j) :: rest) → fieldOf name ≠ some f :=
      fun f hl => hl (name, j) (List.mem_cons_self _ _)
    simp only [decodeMembers] at h
    cases hf : fieldOf name with
    | none =>
      rw [hf] at h
      exact ⟨fun hl => (ih req h).1 (hrest _ hl), fun hl => (ih req h).2 (hrest _ hl)⟩
    | some f =>
      rw [hf] at h
      cases f with
      | userId =>
        simp only [] at h
        cases h1 : decodeString req.UserID j with
        | none => rw [h1] at h; cases h
        | some u =>
          rw [h1] at h
          exact ⟨fun hl => absurd hf (hhead _ hl), fun hl => (ih _ h).2 (hrest _ hl)⟩
      | subscriptions =>
        simp only [] at h
        cases h1 : decodeMap req.Subscriptions j with
        | none => rw [h1] at h; cases h
        | some u =>
          rw [h1] at h
          exact ⟨fun hl => (ih _ h).1 (hrest _ hl), fun hl => absurd hf (hhead _ hl)⟩

/-- C7, refuted as stated: the bodies `{}` and `{"userId":"u1"}` lack required
fields, yet on a working store the handler begins and commits a transaction and
answers with the success response, not with status 400. -/
theorem C7_counterexample :
    (subscribeHandler decodeRequest tick (some goodStore) ⟨"POST", some (Json.object [])⟩
        (World.init [] 0)).resp = okResponse ∧
      (subscribeHandler decodeRequest tick (some goodStore) ⟨"POST", some (Json.object [])⟩
        (World.init [] 0)).trace =
        [Event.decode, Event.begin, Event.prepare, Event.now, Event.commit,
          Event.setHeader "Content-Type" "application/json",
          Event.encode { Success := true, Message := "" },
          Event.stmtClose, Event.bodyClose] ∧
      (subscribeHandler decodeRequest tick (some goodStore)
        ⟨"POST", some (Json.object [("userId", Json.string "u1")])⟩
        (World.init [] 0)).resp = okResponse ∧
      (subscribeHandler decodeRequest tick (some goodStore)
        ⟨"POST", some (Json.object [("userId", Json.string "u1")])⟩
        (World.init [] 0)).trace =
        [Event.decode, Event.begin, Event.prepare, Event.now, Event.commit,
          Event.setHeader "Content-Type" "application/json",
          Event.encode { Success := true, Message := "" },
          Event.stmtClose, Event.bodyClose] :=
  ⟨by decide, by decide, by decide, by decide⟩

/-- C7, amended: a POST body that is a JSON object is not rejected for lacking
`userId` or `subscriptions`.  The decoder rejects an object only
when a member that selects a field has a value of the wrong kind, and then the
handler answers 400 without touching the store; otherwise the field without a
member keeps its zero value (empty string, nil map), the handler calls Begin
and never answers 400, and when `subscriptions` is the missing field and Begin,
Prepare and Commit succeed it commits a transaction without any Exec and
answers with the success response. -/
theorem C7_missing_fields_amended (clock : Nat → Nat) (s : Store)
    (members : List (String × Json)) (table : List Row) (reads : Nat) :
    (decodeValue (Json.object members) = none ↔ ∃ m ∈ members, wellTyped m = false) ∧
    (decodeValue (Json.object members) = none →
      (subscribeHandler decodeRequest clock (some s) ⟨"POST", some (Json.object members)⟩
        (World.init table reads)).resp = errorResponse "Bad request" 400 ∧
      (subscribeHandler decodeRequest clock (some s) ⟨"POST", some (Json.object members)⟩
        (World.init table reads)).trace = [Event.decode, Event.httpError "Bad request" 400]) ∧
    (∀ req, decodeValue (Json.object members) = some req →
      (lacks Field.userId members → req.UserID = "") ∧
      (lacks Field.subscriptions members → req.Subscriptions = none) ∧
      (subscribeHandler decodeRequest clock (some s) ⟨"POST", some (Json.object members)⟩
        (World.init table reads)).trace.take 2 = [Event.decode, Event.begin] ∧
      (subscribeHandler decodeRequest clock (some s) ⟨"POST", some (Json.object members)⟩
        (World.init table reads)).resp.status ≠ some 400) ∧
    (∀ req, decodeValue (Json.object members) = some req →
      lacks Field.subscriptions members →
      s.beginOk = true → s.prepareOk = true → s.commitOk = true →
      (subscribeHandler decodeRequest clock (some s) ⟨"POST", some (Json.object members)⟩
        (World.init table reads)).resp = okResponse ∧
      (subscribeHandler decodeRequest clock (some s) ⟨"POST", some (Json.object members)⟩
        (World.init table reads)).trace =
        [Event.decode, Event.begin, Event.prepare, Event.now, Event.commit,
          Event.setHeader "Content-Type" "application/json",
          Event.encode { Success := true, Message := "" },
          Event.stmtClose, Event.bodyClose]) := by
  refine ⟨decodeMembers_eq_none_iff members _, fun hd => ?_, fun req hd => ?_,
    fun req hd hl hb hp hc => ?_⟩
  · simp [subscribeHandler, MethodPost, decodeRequest, hd, httpError, World.init, World.log,
      errorResponse, setKey, StatusBadRequest]
  · have hz := decodeMembers_lacks members _ req hd
    refine ⟨hz.1, hz.2, ?_⟩
    rcases handler_paths decodeRequest clock s ⟨"POST", some (Json.object members)⟩ req
        table reads rfl hd with
      ⟨_, hW⟩ | ⟨_, _, hW⟩ | ⟨_, _, k, row, _, _, hW⟩ | ⟨_, _, _, _, hW⟩ | ⟨_, _, _, _, hW⟩ <;>
      rw [hW] <;> exact ⟨rfl, by simp [errorResponse, okResponse, StatusOK]⟩
  · have hnone : req.Subscriptions = none := (decodeMembers_lacks members _ req hd).2 hl
    have hnil : flatten req.UserID (clock reads) (entries req.Subscriptions) = [] := by
      rw [hnone]; rfl
    rw [handler_ok decodeRequest clock s ⟨"POST", some (Json.object members)⟩ req table reads
      rfl hd hb hp (by simp [hnil]) hc, hnil]
    exact ⟨rfl, rfl⟩

/-- C7 (amended) at the body `{"userId":"u1"}`, which lacks `subscriptions`:
accepted, committed without any Exec, answered with the success response. -/
theorem C7_missing_fields_amended_witness :
    lacks Field.subscriptions [("userId", Json.string "u1")] ∧
      (subscribeHandler decodeRequest tick (some goodStore)
        ⟨"POST", some (Json.object [("userId", Json.string "u1")])⟩
        (World.init [] 0)).resp = okResponse ∧
      (subscribeHandler decodeRequest tick (some goodStore)
        ⟨"POST", some (Json.object [("userId", Json.string "u1")])⟩
        (World.init [] 0)).trace =
        [Event.decode, Event.begin, Event.prepare, Event.now, Event.commit,
          Event.setHeader "Content-Type" "application/json",
          Event.encode { Success := true, Message := "" },
          Event.stmtClose, Event.bodyClose] :=
  have hl : lacks Field.subscriptions [("userId", Json.string "u1")] := by
    intro m hm
    rw [List.mem_singleton] at hm
    subst hm
    decide
  ⟨hl, (C7_missing_fields_amended tick goodStore [("userId", Json.string "u1")] [] 0).2.2.2
    ⟨"u1", none⟩ rfl hl rfl rfl rfl⟩

/-! ## Start-up -/

/-- Whatever the environment and whatever `sql.Open` returns, `main` leaves the
package-level `db` as it found it. -/
theorem main_keeps_db (getenv : String → String) (sqlOpen : String → String → Option Store)
    (g : Globals) :
    main getenv sqlOpen g = Startup.fatal ∨
      ∃ opened port, main getenv sqlOpen g = Startup.serving g opened port := by
  unfold main
  simp only []
  split
  · exact Or.inl rfl
  · exact Or.inr ⟨_, _, rfl⟩

/-- C10, the code at a failing input: with all five database parameters set
and `sql.Open` returning a working handle, `main` starts serving with the
opened handle in its local variable while the package-level `db` is still nil;
a POST request with a decodable body then dereferences nil at `db.Begin()`:
no Begin reaches the store and no response is written. -/
theorem C10_db_stays_nil :
    main exampleEnv openGood Globals.zero =
        Startup.serving { db := none } (some goodStore) "8080" ∧
      (main exampleEnv openGood Globals.zero).handlerDb = none ∧
      (subscribeHandler decodeId tick (main exampleEnv openGood Globals.zero).handlerDb
        postExample (World.init [] 0)).trace =
        [Event.decode, Event.nilDereference, Event.bodyClose] ∧
      (subscribeHandler decodeId tick (main exampleEnv openGood Globals.zero).handlerDb
        postExample (World.init [] 0)).resp.status = none :=
  ⟨rfl, rfl, rfl, rfl⟩

end LineBackend
